import Mathlib

/-!
Shallow embedding of the titanic-game core (two source variants):
the extended variant (coal resource, start port, goal) and the simple
variant (icebergs only).  JavaScript numbers are idealised: quantities
that the source only ever combines with rational constants (speed,
acceleration, coal, iceberg data, world coordinates used by the
generator) are modelled as `ℚ` (every IEEE double is rational), while
quantities fed through `Math.sin`/`Math.cos`/`Math.PI` (heading, rudder,
camera) live in `ℝ`, with the browser's trigonometric primitives passed
in as function parameters.  The hash-based noise
`s ↦ |frac (Math.sin s * 10000)|` is likewise passed in as a function
parameter with range `[0, 1)`, matching the spec contract of the
pseudo-random field.
-/

namespace Titanic

/-! ### Configuration constants (shipConfig, coalConfig, icebergsConfig,
worldConfig, goalConfig of the source) -/

def maxSpeed : ℚ := 7/2

def maxReverseSpeed : ℚ := 4/5

def accelerationPower : ℚ := 3/100

def accelerationDecay : ℚ := 2/25

def friction : ℚ := 1/50

def rudderSpeed : ℚ := 3/100

def turnRate : ℚ := 1/50

def pivotPoint : ℚ := 7/10

noncomputable def maxRudderAngle : ℝ := Real.pi / 6

def shipLength : ℚ := 200

def shipWidth : ℚ := 60

def maxCoal : ℚ := 100

def depletionRate : ℚ := 1/100

def icebergDensity : ℚ := 10

def icebergMinSize : ℚ := 30

def icebergMaxSize : ℚ := 80

def icebergMinPoints : ℚ := 6

def icebergMaxPoints : ℚ := 12

def icebergGridSize : ℚ := 500

def worldWidth : ℚ := 10000

def worldHeight : ℚ := 10000

def goalRadius : ℚ := 250

def edgeOffset : ℚ := 300

def startSafeRadius : ℚ := 300

/-- Snapshot of the four held arrow keys (the `keys` object). -/
structure Keys where
  up : Bool
  down : Bool
  left : Bool
  right : Bool
deriving DecidableEq

/-! ### Ship physics, extended variant (`updateShip` of the extended source)

The source mutates `ship.{acceleration,speed,rudderAngle,rotation}`,
`camera.{x,y}` and `currentCoal`; those globals are gathered into one
record.  `totalDistance` is a statistics/UI accumulator and is not
modelled. -/

structure PhysState where
  rotation : ℝ
  speed : ℚ
  accel : ℚ
  rudderAngle : ℝ
  camX : ℝ
  camY : ℝ
  coal : ℚ

/-- Acceleration input handling: with coal, ArrowUp/ArrowDown force
`±accelerationPower`, otherwise the acceleration decays toward zero by
`accelerationDecay`; with no coal the acceleration is zeroed. -/
def accelStep (k : Keys) (coal a : ℚ) : ℚ :=
  if 0 < coal then
    if k.up then accelerationPower
    else if k.down then -accelerationPower
    else if 0 < a then max 0 (a - accelerationDecay)
    else if a < 0 then min 0 (a + accelerationDecay)
    else a
  else 0

/-- Apply acceleration to speed (only with coal or while decelerating)
and clamp to `[-maxReverseSpeed, maxSpeed]`. -/
def speedStep (coal a v : ℚ) : ℚ :=
  if a ≠ 0 ∧ (0 < coal ∨ a < 0) then
    let v1 := v + a
    if maxSpeed < v1 then maxSpeed
    else if v1 < -maxReverseSpeed then -maxReverseSpeed
    else v1
  else v

/-- Friction when there is no acceleration, no coal, or the speed is
saturated at a limit: pull the speed toward zero by `friction`, never
overshooting. -/
def frictionStep (coal a v : ℚ) : ℚ :=
  if a = 0 ∨ coal ≤ 0 ∨ (0 < a ∧ maxSpeed ≤ v) ∨ (a < 0 ∧ v ≤ -maxReverseSpeed) then
    if 0 < v then max 0 (v - friction)
    else if v < 0 then min 0 (v + friction)
    else v
  else v

/-- Rudder control: ArrowLeft/ArrowRight move the rudder toward
`∓maxRudderAngle` at `rudderSpeed`; with neither held it self-centers. -/
noncomputable def rudderStep (k : Keys) (r : ℝ) : ℝ :=
  if k.left then max (r - (rudderSpeed : ℚ)) (-maxRudderAngle)
  else if k.right then min (r + (rudderSpeed : ℚ)) maxRudderAngle
  else if 0 < r then max 0 (r - (rudderSpeed : ℚ))
  else if r < 0 then min 0 (r + (rudderSpeed : ℚ))
  else r

/-- Coal depletion: only while moving, proportional to
`|speed| / maxSpeed`, floored at 0. -/
def coalStep (v coal : ℚ) : ℚ :=
  if 0 < |v| then max 0 (coal - depletionRate * (|v| / maxSpeed))
  else coal

/-- One tick of the extended-variant `updateShip(deltaTime)`.
`rcos`/`rsin` stand for `Math.cos`/`Math.sin`.  The `deltaTime`
parameter is, as in the source, accepted and never read.  Steps, in
source order: acceleration input, speed integration with clamping,
friction, rudder, turning about the pivot point with camera correction,
translation, coal depletion. -/
noncomputable def updateShip (rcos rsin : ℝ → ℝ) (deltaTime : ℝ) (k : Keys)
    (s : PhysState) : PhysState :=
  let a := accelStep k s.coal s.accel
  let v1 := speedStep s.coal a s.speed
  let v := frictionStep s.coal a v1
  let r := rudderStep k s.rudderAngle
  let turnEffectiveness : ℚ := |v| / maxSpeed
  let rotationDelta : ℝ := r * (turnRate : ℚ) * (turnEffectiveness : ℚ)
  let pivotOffset : ℚ := (pivotPoint - 1/2) * shipLength
  let pivotWorldX := s.camX + rcos s.rotation * (pivotOffset : ℚ)
  let pivotWorldY := s.camY + rsin s.rotation * (pivotOffset : ℚ)
  let rot := s.rotation + rotationDelta
  let newPivotWorldX := s.camX + rcos rot * (pivotOffset : ℚ)
  let newPivotWorldY := s.camY + rsin rot * (pivotOffset : ℚ)
  let camX1 := s.camX + (pivotWorldX - newPivotWorldX)
  let camY1 := s.camY + (pivotWorldY - newPivotWorldY)
  let camX2 := camX1 + rcos rot * (v : ℚ)
  let camY2 := camY1 + rsin rot * (v : ℚ)
  { rotation := rot
    speed := v
    accel := a
    rudderAngle := r
    camX := camX2
    camY := camY2
    coal := coalStep v s.coal }

/-- Initial extended-variant ship state: heading `-π/2`, everything else
zeroed, full coal; the camera starts wherever `generateStartPort` put
it. -/
noncomputable def initShip (camX camY : ℝ) : PhysState :=
  { rotation := -(Real.pi / 2)
    speed := 0
    accel := 0
    rudderAngle := 0
    camX := camX
    camY := camY
    coal := maxCoal }

/-- Run the extended-variant physics over a sequence of per-tick input
snapshots. -/
noncomputable def runShip (rcos rsin : ℝ → ℝ) (deltaTime : ℝ)
    (inputs : List Keys) (s : PhysState) : PhysState :=
  inputs.foldl (fun st k => updateShip rcos rsin deltaTime k st) s

/-! ### Ship physics, simple variant (`updateShip` of the simple source):
no coal resource. -/

structure SPhysState where
  rotation : ℝ
  speed : ℚ
  accel : ℚ
  rudderAngle : ℝ
  camX : ℝ
  camY : ℝ

def accelStepS (k : Keys) (a : ℚ) : ℚ :=
  if k.up then accelerationPower
  else if k.down then -accelerationPower
  else if 0 < a then max 0 (a - accelerationDecay)
  else if a < 0 then min 0 (a + accelerationDecay)
  else a

def speedStepS (a v : ℚ) : ℚ :=
  if a ≠ 0 then
    let v1 := v + a
    if maxSpeed < v1 then maxSpeed
    else if v1 < -maxReverseSpeed then -maxReverseSpeed
    else v1
  else v

def frictionStepS (a v : ℚ) : ℚ :=
  if a = 0 ∨ (0 < a ∧ maxSpeed ≤ v) ∨ (a < 0 ∧ v ≤ -maxReverseSpeed) then
    if 0 < v then max 0 (v - friction)
    else if v < 0 then min 0 (v + friction)
    else v
  else v

/-- One tick of the simple-variant `updateShip(deltaTime)`; `deltaTime`
is accepted and never read, as in the source. -/
noncomputable def updateShipS (rcos rsin : ℝ → ℝ) (deltaTime : ℝ) (k : Keys)
    (s : SPhysState) : SPhysState :=
  let a := accelStepS k s.accel
  let v1 := speedStepS a s.speed
  let v := frictionStepS a v1
  let r := rudderStep k s.rudderAngle
  let turnEffectiveness : ℚ := |v| / maxSpeed
  let rotationDelta : ℝ := r * (turnRate : ℚ) * (turnEffectiveness : ℚ)
  let pivotOffset : ℚ := (pivotPoint - 1/2) * shipLength
  let pivotWorldX := s.camX + rcos s.rotation * (pivotOffset : ℚ)
  let pivotWorldY := s.camY + rsin s.rotation * (pivotOffset : ℚ)
  let rot := s.rotation + rotationDelta
  let newPivotWorldX := s.camX + rcos rot * (pivotOffset : ℚ)
  let newPivotWorldY := s.camY + rsin rot * (pivotOffset : ℚ)
  let camX1 := s.camX + (pivotWorldX - newPivotWorldX)
  let camY1 := s.camY + (pivotWorldY - newPivotWorldY)
  let camX2 := camX1 + rcos rot * (v : ℚ)
  let camY2 := camY1 + rsin rot * (v : ℚ)
  { rotation := rot
    speed := v
    accel := a
    rudderAngle := r
    camX := camX2
    camY := camY2 }

/-- Initial simple-variant ship state: camera at the world origin. -/
noncomputable def initShipS : SPhysState :=
  { rotation := -(Real.pi / 2)
    speed := 0
    accel := 0
    rudderAngle := 0
    camX := 0
    camY := 0 }

noncomputable def runShipS (rcos rsin : ℝ → ℝ) (deltaTime : ℝ)
    (inputs : List Keys) (s : SPhysState) : SPhysState :=
  inputs.foldl (fun st k => updateShipS rcos rsin deltaTime k st) s

/-! ### Speed-bound invariant lemmas -/

/-- The clamped speed integration lands in
`[-maxReverseSpeed, maxSpeed]` whenever the incoming speed does. -/
lemma speedStep_bounds (coal a v : ℚ)
    (h : -maxReverseSpeed ≤ v ∧ v ≤ maxSpeed) :
    -maxReverseSpeed ≤ speedStep coal a v ∧ speedStep coal a v ≤ maxSpeed := by
  unfold speedStep
  split
  · dsimp only
    split
    · constructor <;> norm_num [maxSpeed, maxReverseSpeed]
    · split
      · constructor <;> norm_num [maxSpeed, maxReverseSpeed]
      · constructor
        · linarith [not_lt.mp (by assumption : ¬ v + a < -maxReverseSpeed)]
        · linarith [not_lt.mp (by assumption : ¬ maxSpeed < v + a)]
  · exact h

lemma frictionStep_bounds (coal a v : ℚ)
    (h : -maxReverseSpeed ≤ v ∧ v ≤ maxSpeed) :
    -maxReverseSpeed ≤ frictionStep coal a v ∧ frictionStep coal a v ≤ maxSpeed := by
  unfold frictionStep
  split
  · split
    · constructor
      · have : (0:ℚ) ≤ max 0 (v - friction) := le_max_left 0 _
        have hm : -maxReverseSpeed ≤ (0:ℚ) := by norm_num [maxReverseSpeed]
        linarith
      · have h1 : v - friction ≤ maxSpeed := by
          have : (0:ℚ) < friction := by norm_num [friction]
          linarith [h.2]
        have h2 : (0:ℚ) ≤ maxSpeed := by norm_num [maxSpeed]
        exact max_le h2 h1
    · split
      · constructor
        · have h1 : -maxReverseSpeed ≤ v + friction := by
            have : (0:ℚ) < friction := by norm_num [friction]
            linarith [h.1]
          have h2 : -maxReverseSpeed ≤ (0:ℚ) := by norm_num [maxReverseSpeed]
          exact le_min h2 h1
        · have : min 0 (v + friction) ≤ 0 := min_le_left 0 _
          have hm : (0:ℚ) ≤ maxSpeed := by norm_num [maxSpeed]
          linarith
      · exact h
  · exact h

lemma speedStepS_bounds (a v : ℚ)
    (h : -maxReverseSpeed ≤ v ∧ v ≤ maxSpeed) :
    -maxReverseSpeed ≤ speedStepS a v ∧ speedStepS a v ≤ maxSpeed := by
  unfold speedStepS
  split
  · dsimp only
    split
    · constructor <;> norm_num [maxSpeed, maxReverseSpeed]
    · split
      · constructor <;> norm_num [maxSpeed, maxReverseSpeed]
      · constructor
        · linarith [not_lt.mp (by assumption : ¬ v + a < -maxReverseSpeed)]
        · linarith [not_lt.mp (by assumption : ¬ maxSpeed < v + a)]
  · exact h

lemma frictionStepS_bounds (a v : ℚ)
    (h : -maxReverseSpeed ≤ v ∧ v ≤ maxSpeed) :
    -maxReverseSpeed ≤ frictionStepS a v ∧ frictionStepS a v ≤ maxSpeed := by
  unfold frictionStepS
  split
  · split
    · constructor
      · have : (0:ℚ) ≤ max 0 (v - friction) := le_max_left 0 _
        have hm : -maxReverseSpeed ≤ (0:ℚ) := by norm_num [maxReverseSpeed]
        linarith
      · have h1 : v - friction ≤ maxSpeed := by
          have : (0:ℚ) < friction := by norm_num [friction]
          linarith [h.2]
        have h2 : (0:ℚ) ≤ maxSpeed := by norm_num [maxSpeed]
        exact max_le h2 h1
    · split
      · constructor
        · have h1 : -maxReverseSpeed ≤ v + friction := by
            have : (0:ℚ) < friction := by norm_num [friction]
            linarith [h.1]
          have h2 : -maxReverseSpeed ≤ (0:ℚ) := by norm_num [maxReverseSpeed]
          exact le_min h2 h1
        · have : min 0 (v + friction) ≤ 0 := min_le_left 0 _
          have hm : (0:ℚ) ≤ maxSpeed := by norm_num [maxSpeed]
          linarith
      · exact h
  · exact h

lemma updateShip_speed (rcos rsin : ℝ → ℝ) (deltaTime : ℝ) (k : Keys)
    (s : PhysState) :
    (updateShip rcos rsin deltaTime k s).speed =
      frictionStep s.coal (accelStep k s.coal s.accel)
        (speedStep s.coal (accelStep k s.coal s.accel) s.speed) := rfl

lemma updateShipS_speed (rcos rsin : ℝ → ℝ) (deltaTime : ℝ) (k : Keys)
    (s : SPhysState) :
    (updateShipS rcos rsin deltaTime k s).speed =
      frictionStepS (accelStepS k s.accel)
        (speedStepS (accelStepS k s.accel) s.speed) := rfl

lemma updateShip_speed_bounds (rcos rsin : ℝ → ℝ) (deltaTime : ℝ) (k : Keys)
    (s : PhysState) (h : -maxReverseSpeed ≤ s.speed ∧ s.speed ≤ maxSpeed) :
    -maxReverseSpeed ≤ (updateShip rcos rsin deltaTime k s).speed ∧
      (updateShip rcos rsin deltaTime k s).speed ≤ maxSpeed := by
  rw [updateShip_speed]
  exact frictionStep_bounds _ _ _ (speedStep_bounds _ _ _ h)

lemma updateShipS_speed_bounds (rcos rsin : ℝ → ℝ) (deltaTime : ℝ) (k : Keys)
    (s : SPhysState) (h : -maxReverseSpeed ≤ s.speed ∧ s.speed ≤ maxSpeed) :
    -maxReverseSpeed ≤ (updateShipS rcos rsin deltaTime k s).speed ∧
      (updateShipS rcos rsin deltaTime k s).speed ≤ maxSpeed := by
  rw [updateShipS_speed]
  exact frictionStepS_bounds _ _ (speedStepS_bounds _ _ h)

lemma runShip_speed_bounds (rcos rsin : ℝ → ℝ) (deltaTime : ℝ)
    (inputs : List Keys) (s : PhysState)
    (h : -maxReverseSpeed ≤ s.speed ∧ s.speed ≤ maxSpeed) :
    -maxReverseSpeed ≤ (runShip rcos rsin deltaTime inputs s).speed ∧
      (runShip rcos rsin deltaTime inputs s).speed ≤ maxSpeed := by
  induction inputs generalizing s with
  | nil => exact h
  | cons k rest ih =>
      exact ih _ (updateShip_speed_bounds rcos rsin deltaTime k s h)

lemma runShipS_speed_bounds (rcos rsin : ℝ → ℝ) (deltaTime : ℝ)
    (inputs : List Keys) (s : SPhysState)
    (h : -maxReverseSpeed ≤ s.speed ∧ s.speed ≤ maxSpeed) :
    -maxReverseSpeed ≤ (runShipS rcos rsin deltaTime inputs s).speed ∧
      (runShipS rcos rsin deltaTime inputs s).speed ≤ maxSpeed := by
  induction inputs generalizing s with
  | nil => exact h
  | cons k rest ih =>
      exact ih _ (updateShipS_speed_bounds rcos rsin deltaTime k s h)

/-- C1.  Starting from the initial ship state, for every sequence of
per-tick input snapshots the ship's speed after each `updateShip` tick
stays in `[-maxReverseSpeed, maxSpeed] = [-0.8, 3.5]`, in both source
variants (every prefix of a tick sequence is itself a tick sequence, so
the bound after each update is the bound after every run). -/
theorem speed_always_bounded :
    (∀ (rcos rsin : ℝ → ℝ) (deltaTime : ℝ) (inputs : List Keys) (camX camY : ℝ),
      -maxReverseSpeed ≤ (runShip rcos rsin deltaTime inputs (initShip camX camY)).speed ∧
        (runShip rcos rsin deltaTime inputs (initShip camX camY)).speed ≤ maxSpeed) ∧
    (∀ (rcos rsin : ℝ → ℝ) (deltaTime : ℝ) (inputs : List Keys),
      -maxReverseSpeed ≤ (runShipS rcos rsin deltaTime inputs initShipS).speed ∧
        (runShipS rcos rsin deltaTime inputs initShipS).speed ≤ maxSpeed) := by
  constructor
  · intro rcos rsin deltaTime inputs camX camY
    refine runShip_speed_bounds rcos rsin deltaTime inputs _ ?_
    constructor <;> norm_num [initShip, maxSpeed, maxReverseSpeed]
  · intro rcos rsin deltaTime inputs
    refine runShipS_speed_bounds rcos rsin deltaTime inputs _ ?_
    constructor <;> norm_num [initShipS, maxSpeed, maxReverseSpeed]

/-- C10.  The physics step is independent of its `deltaTime` argument in
both source variants: the frame-time scaling factor that the game loop
computes, clamps and passes in is never read by `updateShip`. -/
theorem updateShip_deltaTime_independent :
    (∀ (rcos rsin : ℝ → ℝ) (d1 d2 : ℝ) (k : Keys) (s : PhysState),
      updateShip rcos rsin d1 k s = updateShip rcos rsin d2 k s) ∧
    (∀ (rcos rsin : ℝ → ℝ) (d1 d2 : ℝ) (k : Keys) (s : SPhysState),
      updateShipS rcos rsin d1 k s = updateShipS rcos rsin d2 k s) :=
  ⟨fun _ _ _ _ _ _ => rfl, fun _ _ _ _ _ _ => rfl⟩

/-! ### Coal resource lemmas (extended variant) -/

lemma updateShip_coal (rcos rsin : ℝ → ℝ) (deltaTime : ℝ) (k : Keys)
    (s : PhysState) :
    (updateShip rcos rsin deltaTime k s).coal =
      coalStep (updateShip rcos rsin deltaTime k s).speed s.coal := rfl

lemma coalStep_bounds (v c : ℚ) (h : 0 ≤ c) :
    coalStep v c ≤ c ∧ 0 ≤ coalStep v c := by
  unfold coalStep
  split
  · have hd : 0 ≤ depletionRate * (|v| / maxSpeed) := by
      have h1 : (0:ℚ) ≤ |v| := abs_nonneg v
      have h2 : (0:ℚ) ≤ |v| / maxSpeed := by
        have hm : (0:ℚ) < maxSpeed := by norm_num [maxSpeed]
        positivity
      have h3 : (0:ℚ) ≤ depletionRate := by norm_num [depletionRate]
      exact mul_nonneg h3 h2
    exact ⟨max_le h (by linarith), le_max_left 0 _⟩
  · exact ⟨le_rfl, h⟩

lemma updateShip_coal_bounds (rcos rsin : ℝ → ℝ) (deltaTime : ℝ) (k : Keys)
    (s : PhysState) (h : 0 ≤ s.coal) :
    (updateShip rcos rsin deltaTime k s).coal ≤ s.coal ∧
      0 ≤ (updateShip rcos rsin deltaTime k s).coal := by
  rw [updateShip_coal]
  exact coalStep_bounds _ _ h

lemma runShip_coal_bounds (rcos rsin : ℝ → ℝ) (deltaTime : ℝ)
    (inputs : List Keys) (s : PhysState) (h : 0 ≤ s.coal) :
    (runShip rcos rsin deltaTime inputs s).coal ≤ s.coal ∧
      0 ≤ (runShip rcos rsin deltaTime inputs s).coal := by
  induction inputs generalizing s with
  | nil => exact ⟨le_rfl, h⟩
  | cons k rest ih =>
      have hstep := updateShip_coal_bounds rcos rsin deltaTime k s h
      have hrest := ih (updateShip rcos rsin deltaTime k s) hstep.2
      exact ⟨le_trans hrest.1 hstep.1, hrest.2⟩

/-- C4.  In the extended variant, over every tick sequence from the
initial state the coal level stays in `[0, maxCoal]` and is
non-increasing from each tick to the next (stated at every prefix
`inputs` of a tick sequence, with `k` the next tick's input). -/
theorem coal_monotone_bounded :
    ∀ (rcos rsin : ℝ → ℝ) (deltaTime : ℝ) (camX camY : ℝ)
      (inputs : List Keys) (k : Keys),
      0 ≤ (runShip rcos rsin deltaTime inputs (initShip camX camY)).coal ∧
      (runShip rcos rsin deltaTime inputs (initShip camX camY)).coal ≤ maxCoal ∧
      (updateShip rcos rsin deltaTime k
          (runShip rcos rsin deltaTime inputs (initShip camX camY))).coal ≤
        (runShip rcos rsin deltaTime inputs (initShip camX camY)).coal := by
  intro rcos rsin deltaTime camX camY inputs k
  have hinit : (0:ℚ) ≤ (initShip camX camY).coal := by
    norm_num [initShip, maxCoal]
  have hrun := runShip_coal_bounds rcos rsin deltaTime inputs _ hinit
  have hcoal : (initShip camX camY).coal = maxCoal := rfl
  refine ⟨hrun.2, by rw [hcoal] at hrun; exact hrun.1, ?_⟩
  exact (updateShip_coal_bounds rcos rsin deltaTime k _ hrun.2).1

/-- C5.  In the extended variant, once the coal level is 0 it stays 0,
and on every subsequent tick — whatever keys are held — the speed's
magnitude never increases and strictly decreases while nonzero:
acceleration is forced to zero and friction decays the speed toward a
stop. -/
theorem depleted_coal_decay :
    ∀ (rcos rsin : ℝ → ℝ) (deltaTime : ℝ) (k : Keys) (s : PhysState),
      s.coal = 0 →
      (updateShip rcos rsin deltaTime k s).coal = 0 ∧
      |(updateShip rcos rsin deltaTime k s).speed| ≤ |s.speed| ∧
      (s.speed ≠ 0 → |(updateShip rcos rsin deltaTime k s).speed| < |s.speed|) := by
  intro rcos rsin deltaTime k s hc
  have ha : accelStep k s.coal s.accel = 0 := by
    unfold accelStep
    rw [hc]
    norm_num
  have hv1 : speedStep s.coal 0 s.speed = s.speed := by
    unfold speedStep
    simp
  have hv : (updateShip rcos rsin deltaTime k s).speed =
      frictionStep s.coal 0 s.speed := by
    rw [updateShip_speed, ha, hv1]
  have hfric : frictionStep s.coal 0 s.speed =
      (if 0 < s.speed then max 0 (s.speed - friction)
       else if s.speed < 0 then min 0 (s.speed + friction)
       else s.speed) := by
    unfold frictionStep
    rw [if_pos (Or.inl rfl)]
  have hspeed_le : |frictionStep s.coal 0 s.speed| ≤ |s.speed| ∧
      (s.speed ≠ 0 → |frictionStep s.coal 0 s.speed| < |s.speed|) := by
    rw [hfric]
    rcases lt_trichotomy s.speed 0 with hneg | hzero | hpos
    · rw [if_neg (by linarith), if_pos hneg]
      have hub : min 0 (s.speed + friction) ≤ 0 := min_le_left _ _
      have hlb : s.speed < min 0 (s.speed + friction) := by
        have hf : (0:ℚ) < friction := by norm_num [friction]
        exact lt_min hneg (by linarith)
      rw [abs_of_nonpos hub, abs_of_neg hneg]
      exact ⟨by linarith, fun _ => by linarith⟩
    · rw [hzero]
      norm_num
    · rw [if_pos hpos]
      have hlb : (0:ℚ) ≤ max 0 (s.speed - friction) := le_max_left _ _
      have hub : max 0 (s.speed - friction) < s.speed := by
        have hf : (0:ℚ) < friction := by norm_num [friction]
        exact max_lt hpos (by linarith)
      rw [abs_of_nonneg hlb, abs_of_pos hpos]
      exact ⟨by linarith, fun _ => by linarith⟩
  refine ⟨?_, by rw [hv]; exact hspeed_le.1, by rw [hv]; exact hspeed_le.2⟩
  rw [updateShip_coal, hc]
  unfold coalStep
  split
  · have hd : 0 ≤ depletionRate *
        (|(updateShip rcos rsin deltaTime k s).speed| / maxSpeed) := by
      have h1 : (0:ℚ) ≤ |(updateShip rcos rsin deltaTime k s).speed| := abs_nonneg _
      have h3 : (0:ℚ) ≤ depletionRate := by norm_num [depletionRate]
      have h4 : (0:ℚ) < maxSpeed := by norm_num [maxSpeed]
      positivity
    have : (0:ℚ) - depletionRate *
        (|(updateShip rcos rsin deltaTime k s).speed| / maxSpeed) ≤ 0 := by linarith
    exact max_eq_left this
  · rfl

/-- Witness for C5 at a concrete depleted state moving at speed 1/2 with
the throttle held. -/
theorem depleted_coal_decay_witness :
    (⟨0, 1/2, 0, 0, 0, 0, 0⟩ : PhysState).coal = 0 ∧
    ((updateShip (fun _ => (0:ℝ)) (fun _ => (0:ℝ)) 1 ⟨true, false, false, false⟩
        ⟨0, 1/2, 0, 0, 0, 0, 0⟩).coal = 0 ∧
      |(updateShip (fun _ => (0:ℝ)) (fun _ => (0:ℝ)) 1 ⟨true, false, false, false⟩
        ⟨0, 1/2, 0, 0, 0, 0, 0⟩).speed| ≤ |(⟨0, 1/2, 0, 0, 0, 0, 0⟩ : PhysState).speed| ∧
      ((⟨0, 1/2, 0, 0, 0, 0, 0⟩ : PhysState).speed ≠ 0 →
        |(updateShip (fun _ => (0:ℝ)) (fun _ => (0:ℝ)) 1 ⟨true, false, false, false⟩
          ⟨0, 1/2, 0, 0, 0, 0, 0⟩).speed| < |(⟨0, 1/2, 0, 0, 0, 0, 0⟩ : PhysState).speed|)) :=
  ⟨rfl, depleted_coal_decay (fun _ => (0:ℝ)) (fun _ => (0:ℝ)) 1
    ⟨true, false, false, false⟩ ⟨0, 1/2, 0, 0, 0, 0, 0⟩ rfl⟩

/-! ### World generation (`generateIcebergsForChunk`,
`ensureIcebergsGenerated`)

The generator is written over any linear ordered field with a floor so
that it can be instantiated at `ℚ` (for concrete evaluation; every IEEE
double is rational) and at `ℝ` (inside the game loop).  The two noise
parameters `ns`/`nc` stand for the source's
`s ↦ |frac (Math.sin s * 10000)|` and `s ↦ |frac (Math.cos s * 10000)|`,
pure functions with range `[0, 1)`. -/

structure Iceberg (K : Type) where
  x : K
  y : K
  size : K
  pointCount : ℤ
  seed : ℤ
deriving DecidableEq

/-- Expected iceberg count of one chunk:
`floor((chunkArea / screenArea) * density)` with the canvas dimensions
read at call time.  The division and floor are exact in `ℚ`. -/
def expectedIcebergCount (w h : ℕ) : ℤ :=
  ⌊icebergGridSize * icebergGridSize / ((w : ℚ) * (h : ℚ)) * icebergDensity⌋

section WorldGen

variable {K : Type} [LinearOrderedField K] [FloorRing K]

/-- Candidate iceberg `i` of chunk `(cx, cy)`: position from two noise
samples at seed `(seed+i)*0.1`, size from a sample at `(seed+i)*0.15`,
point count from a sample at `(seed+i)*0.2`, with
`seed = cx*1000 + cy`. -/
def icebergCandidate (ns nc : K → K) (cx cy : ℤ) (i : ℕ) : Iceberg K :=
  let seed : ℤ := cx * 1000 + cy
  let x : K := (cx : K) * (icebergGridSize : K) +
    ns (((seed + i : ℤ) : K) * (1/10)) * (icebergGridSize : K)
  let y : K := (cy : K) * (icebergGridSize : K) +
    nc (((seed + i : ℤ) : K) * (1/10)) * (icebergGridSize : K)
  let size : K := (icebergMinSize : K) +
    ns (((seed + i : ℤ) : K) * (15/100)) * ((icebergMaxSize : K) - (icebergMinSize : K))
  let pts : ℤ := ⌊(icebergMinPoints : K) +
    ns (((seed + i : ℤ) : K) * (2/10)) * ((icebergMaxPoints : K) - (icebergMinPoints : K))⌋
  ⟨x, y, size, pts, seed + i⟩

/-- The unguarded generation body: all candidates of the chunk, skipping
any whose distance from the world origin is below `startSafeRadius`.
The source computes `Math.sqrt(x*x + y*y) < startSafeRadius`; the test
is encoded on the squares, which is equivalent
(`sqrt_lt_safeRadius_iff`). -/
def icebergsForChunk (ns nc : K → K) (w h : ℕ) (cx cy : ℤ) : List (Iceberg K) :=
  (List.range (expectedIcebergCount w h).toNat).filterMap (fun i =>
    let b := icebergCandidate ns nc cx cy i
    if b.x * b.x + b.y * b.y < (startSafeRadius : K) * (startSafeRadius : K) then none
    else some b)

/-- The squared encoding of the source's safe-zone test agrees with the
`Math.sqrt` comparison it translates. -/
lemma sqrt_lt_safeRadius_iff (x y : ℝ) :
    Real.sqrt (x * x + y * y) < (startSafeRadius : ℝ) ↔
      x * x + y * y < (startSafeRadius : ℝ) * (startSafeRadius : ℝ) := by
  have h : (0:ℝ) < (startSafeRadius : ℝ) := by norm_num [startSafeRadius]
  rw [Real.sqrt_lt' h, pow_two]

/-- Generation state: the set of already-generated chunk keys and the
append-only iceberg list. -/
structure GenState (K : Type) where
  loadedChunks : Finset (ℤ × ℤ)
  icebergs : List (Iceberg K)

/-- Guarded chunk generation: an already-loaded chunk key is skipped;
otherwise the key is recorded and the chunk's icebergs appended. -/
def generateIcebergsForChunk (ns nc : K → K) (w h : ℕ) (cx cy : ℤ)
    (g : GenState K) : GenState K :=
  if (cx, cy) ∈ g.loadedChunks then g
  else ⟨insert (cx, cy) g.loadedChunks,
        g.icebergs ++ icebergsForChunk ns nc w h cx cy⟩

def chunkIndexRange (lo hi : ℤ) : List ℤ :=
  (List.range (hi + 1 - lo).toNat).map (fun i => lo + i)

/-- Inclusive chunk-index range covered by a viewport of length `len`
centred at `cam` along one axis:
`floor((cam - len/2) / gridSize) .. ceil((cam + len/2) / gridSize)`. -/
def visibleChunkIndices (len : ℕ) (cam : K) : List ℤ :=
  chunkIndexRange ⌊(cam - (len : K) / 2) / (icebergGridSize : K)⌋
    ⌈(cam + (len : K) / 2) / (icebergGridSize : K)⌉

/-- Model of `ensureIcebergsGenerated`: generate every chunk overlapping the
viewport, outer loop over x-indices, inner loop over y-indices. -/
def ensureIcebergsGenerated (ns nc : K → K) (w h : ℕ) (camX camY : K)
    (g : GenState K) : GenState K :=
  (visibleChunkIndices w camX).foldl (fun g1 cx =>
    (visibleChunkIndices h camY).foldl (fun g2 cy =>
      generateIcebergsForChunk ns nc w h cx cy g2) g1) g

lemma generateIcebergsForChunk_of_loaded {ns nc : K → K} {w h : ℕ}
    {cx cy : ℤ} {g : GenState K} (hm : (cx, cy) ∈ g.loadedChunks) :
    generateIcebergsForChunk ns nc w h cx cy g = g := by
  unfold generateIcebergsForChunk
  rw [if_pos hm]

lemma loaded_subset_generateIcebergsForChunk (ns nc : K → K) (w h : ℕ)
    (cx cy : ℤ) (g : GenState K) :
    g.loadedChunks ⊆ (generateIcebergsForChunk ns nc w h cx cy g).loadedChunks := by
  unfold generateIcebergsForChunk
  split
  · exact Finset.Subset.refl _
  · exact Finset.subset_insert _ _

lemma mem_loaded_generateIcebergsForChunk (ns nc : K → K) (w h : ℕ)
    (cx cy : ℤ) (g : GenState K) :
    (cx, cy) ∈ (generateIcebergsForChunk ns nc w h cx cy g).loadedChunks := by
  unfold generateIcebergsForChunk
  split
  · assumption
  · exact Finset.mem_insert_self _ _

lemma loaded_subset_innerFold (ns nc : K → K) (w h : ℕ) (cx : ℤ)
    (l : List ℤ) (g : GenState K) :
    g.loadedChunks ⊆
      (l.foldl (fun g2 cy => generateIcebergsForChunk ns nc w h cx cy g2) g).loadedChunks := by
  induction l generalizing g with
  | nil => exact Finset.Subset.refl _
  | cons y ys ih =>
      exact Finset.Subset.trans
        (loaded_subset_generateIcebergsForChunk ns nc w h cx y g) (ih _)

lemma loaded_subset_outerFold (ns nc : K → K) (w h : ℕ)
    (ly : List ℤ) (lx : List ℤ) (g : GenState K) :
    g.loadedChunks ⊆
      (lx.foldl (fun g1 cx =>
        ly.foldl (fun g2 cy => generateIcebergsForChunk ns nc w h cx cy g2) g1) g).loadedChunks := by
  induction lx generalizing g with
  | nil => exact Finset.Subset.refl _
  | cons x xs ih =>
      exact Finset.Subset.trans (loaded_subset_innerFold ns nc w h x ly g) (ih _)

lemma mem_loaded_innerFold (ns nc : K → K) (w h : ℕ) (cx : ℤ)
    (l : List ℤ) (g : GenState K) :
    ∀ cy ∈ l,
      (cx, cy) ∈
        (l.foldl (fun g2 cy => generateIcebergsForChunk ns nc w h cx cy g2) g).loadedChunks := by
  induction l generalizing g with
  | nil => intro cy hcy; cases hcy
  | cons y ys ih =>
      intro cy hcy
      rcases List.mem_cons.mp hcy with rfl | hcy
      · exact loaded_subset_innerFold ns nc w h cx ys _
          (mem_loaded_generateIcebergsForChunk ns nc w h cx cy g)
      · exact ih _ cy hcy

lemma mem_loaded_ensure (ns nc : K → K) (w h : ℕ) (camX camY : K)
    (g : GenState K) :
    ∀ cx ∈ visibleChunkIndices w camX, ∀ cy ∈ visibleChunkIndices h camY,
      (cx, cy) ∈ (ensureIcebergsGenerated ns nc w h camX camY g).loadedChunks := by
  unfold ensureIcebergsGenerated
  generalize visibleChunkIndices w camX = lx
  generalize visibleChunkIndices h camY = ly
  induction lx generalizing g with
  | nil => intro cx hcx; cases hcx
  | cons x xs ih =>
      intro cx hcx cy hcy
      rcases List.mem_cons.mp hcx with rfl | hcx
      · exact loaded_subset_outerFold ns nc w h ly xs _
          (mem_loaded_innerFold ns nc w h cx ly g cy hcy)
      · exact ih _ cx hcx cy hcy

lemma innerFold_of_loaded (ns nc : K → K) (w h : ℕ) (cx : ℤ)
    (l : List ℤ) (g : GenState K)
    (hl : ∀ cy ∈ l, (cx, cy) ∈ g.loadedChunks) :
    l.foldl (fun g2 cy => generateIcebergsForChunk ns nc w h cx cy g2) g = g := by
  induction l with
  | nil => rfl
  | cons y ys ih =>
      have h1 : generateIcebergsForChunk ns nc w h cx y g = g :=
        generateIcebergsForChunk_of_loaded (hl y (List.mem_cons_self y ys))
      rw [List.foldl_cons, h1]
      exact ih (fun cy hcy => hl cy (List.mem_cons_of_mem y hcy))

lemma outerFold_of_loaded (ns nc : K → K) (w h : ℕ)
    (ly : List ℤ) (lx : List ℤ) (g : GenState K)
    (hl : ∀ cx ∈ lx, ∀ cy ∈ ly, (cx, cy) ∈ g.loadedChunks) :
    lx.foldl (fun g1 cx =>
      ly.foldl (fun g2 cy => generateIcebergsForChunk ns nc w h cx cy g2) g1) g = g := by
  induction lx with
  | nil => rfl
  | cons x xs ih =>
      have h1 : ly.foldl (fun g2 cy => generateIcebergsForChunk ns nc w h x cy g2) g = g :=
        innerFold_of_loaded ns nc w h x ly g (hl x (List.mem_cons_self x xs))
      rw [List.foldl_cons, h1]
      exact ih (fun cx hcx => hl cx (List.mem_cons_of_mem x hcx))

/-- C7.  `ensureIcebergsGenerated` is idempotent: a second call whose
viewport chunk range is contained in (in particular, equal to) the first
call's range leaves the whole generation state — and so the iceberg
list — unchanged: every chunk key already in the loaded set is skipped,
so no iceberg is generated twice for the same chunk. -/
theorem ensureIcebergsGenerated_idempotent (K : Type) [LinearOrderedField K]
    [FloorRing K] :
    ∀ (ns nc : K → K) (w h : ℕ) (camX camY : K) (w' h' : ℕ) (camX' camY' : K)
      (g : GenState K),
      (∀ a ∈ visibleChunkIndices w' camX', a ∈ visibleChunkIndices w camX) →
      (∀ a ∈ visibleChunkIndices h' camY', a ∈ visibleChunkIndices h camY) →
      ensureIcebergsGenerated ns nc w' h' camX' camY'
          (ensureIcebergsGenerated ns nc w h camX camY g) =
        ensureIcebergsGenerated ns nc w h camX camY g := by
  intro ns nc w h camX camY w' h' camX' camY' g hx hy
  unfold ensureIcebergsGenerated
  refine outerFold_of_loaded ns nc w' h' _ _ _ ?_
  intro cx hcx cy hcy
  exact mem_loaded_ensure ns nc w h camX camY g cx (hx cx hcx) cy (hy cy hcy)

/-- Witness for C7: the same 500×500 viewport at the origin, generated
twice from the empty state over `ℚ`. -/
theorem ensureIcebergsGenerated_idempotent_witness :
    (∀ a ∈ visibleChunkIndices 500 (0:ℚ), a ∈ visibleChunkIndices 500 (0:ℚ)) ∧
    ensureIcebergsGenerated (fun _ => (1:ℚ)/2) (fun _ => (1:ℚ)/2) 500 500 0 0
        (ensureIcebergsGenerated (fun _ => (1:ℚ)/2) (fun _ => (1:ℚ)/2) 500 500 0 0
          ⟨∅, []⟩) =
      ensureIcebergsGenerated (fun _ => (1:ℚ)/2) (fun _ => (1:ℚ)/2) 500 500 0 0
        ⟨∅, []⟩ :=
  ⟨fun _ ha => ha,
    ensureIcebergsGenerated_idempotent ℚ (fun _ => (1:ℚ)/2) (fun _ => (1:ℚ)/2)
      500 500 0 0 500 500 0 0 ⟨∅, []⟩ (fun _ ha => ha) (fun _ ha => ha)⟩

/-- Ambient per-frame state visible to the generator: canvas size plus
the quantities the determinism claim says the generator must NOT depend
on (camera position, animation time, frame count). -/
structure ViewState (K : Type) where
  canvasW : ℕ
  canvasH : ℕ
  cameraX : K
  cameraY : K
  animationTime : ℚ
  frameCount : ℕ

/-- The chunk-generation body (guard ignored) run against the full
ambient state: of the state it reads only the canvas dimensions. -/
def generateIcebergsForChunkBody (ns nc : K → K) (st : ViewState K)
    (cx cy : ℤ) : List (Iceberg K) :=
  icebergsForChunk ns nc st.canvasW st.canvasH cx cy

/-- Membership in a generated chunk comes from some candidate index that
passed the origin safe-zone filter. -/
lemma mem_icebergsForChunk {ns nc : K → K} {w h : ℕ} {cx cy : ℤ}
    {b : Iceberg K} (hb : b ∈ icebergsForChunk ns nc w h cx cy) :
    ¬(b.x * b.x + b.y * b.y < (startSafeRadius : K) * (startSafeRadius : K)) ∧
      ∃ i : ℕ, b = icebergCandidate ns nc cx cy i := by
  unfold icebergsForChunk at hb
  rcases List.mem_filterMap.mp hb with ⟨i, _, hf⟩
  by_cases hcond : (icebergCandidate ns nc cx cy i).x * (icebergCandidate ns nc cx cy i).x +
      (icebergCandidate ns nc cx cy i).y * (icebergCandidate ns nc cx cy i).y <
      (startSafeRadius : K) * (startSafeRadius : K)
  · rw [if_pos hcond] at hf
    cases hf
  · rw [if_neg hcond] at hf
    obtain rfl : icebergCandidate ns nc cx cy i = b := Option.some.inj hf
    exact ⟨hcond, i, rfl⟩

end WorldGen

/-- C6.  Chunk generation is deterministic: for a fixed chunk key, two
runs of the generation body (guard ignored) against any two ambient
states with the same canvas dimensions — arbitrary camera positions,
animation times and frame counts — produce identical iceberg lists
(same positions, sizes, point counts, seeds), since every pseudo-random
value is a function of the chunk seed and the candidate index alone. -/
theorem generateChunk_deterministic (K : Type) [LinearOrderedField K]
    [FloorRing K] :
    ∀ (ns nc : K → K) (st1 st2 : ViewState K) (cx cy : ℤ),
      st1.canvasW = st2.canvasW → st1.canvasH = st2.canvasH →
      generateIcebergsForChunkBody ns nc st1 cx cy =
        generateIcebergsForChunkBody ns nc st2 cx cy := by
  intro ns nc st1 st2 cx cy hw hh
  unfold generateIcebergsForChunkBody
  rw [hw, hh]

/-- Witness for C6: same 500×500 canvas, wildly different camera
position, animation time and frame count. -/
theorem generateChunk_deterministic_witness :
    (⟨500, 500, 0, 0, 0, 0⟩ : ViewState ℚ).canvasW =
      (⟨500, 500, 12345, -678, 99, 42⟩ : ViewState ℚ).canvasW ∧
    (⟨500, 500, 0, 0, 0, 0⟩ : ViewState ℚ).canvasH =
      (⟨500, 500, 12345, -678, 99, 42⟩ : ViewState ℚ).canvasH ∧
    generateIcebergsForChunkBody (fun _ => (1:ℚ)/2) (fun _ => (1:ℚ)/2)
        ⟨500, 500, 0, 0, 0, 0⟩ 1 0 =
      generateIcebergsForChunkBody (fun _ => (1:ℚ)/2) (fun _ => (1:ℚ)/2)
        ⟨500, 500, 12345, -678, 99, 42⟩ 1 0 :=
  ⟨rfl, rfl,
    generateChunk_deterministic ℚ (fun _ => (1:ℚ)/2) (fun _ => (1:ℚ)/2)
      ⟨500, 500, 0, 0, 0, 0⟩ ⟨500, 500, 12345, -678, 99, 42⟩ 1 0 rfl rfl⟩

/-- Every generated iceberg lies at least `startSafeRadius` from the
world ORIGIN — this is the guarantee the source's filter actually
provides, in both variants. -/
theorem icebergsForChunk_origin_safe (ns nc : ℝ → ℝ) (w h : ℕ) (cx cy : ℤ) :
    ∀ b ∈ icebergsForChunk ns nc w h cx cy,
      (startSafeRadius : ℝ) ≤ Real.sqrt (b.x * b.x + b.y * b.y) := by
  intro b hb
  have hfilter := (mem_icebergsForChunk hb).1
  by_contra hlt
  exact hfilter ((sqrt_lt_safeRadius_iff b.x b.y).mp (lt_of_not_le hlt))

/-! ### Start port and goal placement (extended variant)

`Math.floor(Math.random() * 4)` is modelled as an edge draw `e : Fin 4`
and each subsequent `Math.random()` as a rational draw in `[0, 1)`.  The
goal's do/while loop consumes a stream of edge draws, modelled as a
list. -/

structure StartPort where
  x : ℚ
  y : ℚ
  generated : Bool
deriving DecidableEq

/-- Model of `generateStartPort`: place the port on the drawn edge (0 top, 1
right, 2 bottom, 3 left), uniformly along it via `r1`, then put the
camera near the port via `r2`, `r3`.  Returns the port and the camera
position. -/
def generateStartPort (e : Fin 4) (r1 r2 r3 : ℚ) : StartPort × ℚ × ℚ :=
  let p : ℚ × ℚ :=
    if e.val = 0 then (edgeOffset + r1 * (worldWidth - edgeOffset * 2), edgeOffset)
    else if e.val = 1 then (worldWidth - edgeOffset, edgeOffset + r1 * (worldHeight - edgeOffset * 2))
    else if e.val = 2 then (edgeOffset + r1 * (worldWidth - edgeOffset * 2), worldHeight - edgeOffset)
    else (edgeOffset, edgeOffset + r1 * (worldHeight - edgeOffset * 2))
  let shipOffset : ℚ := goalRadius + 50
  (⟨p.1, p.2, true⟩,
    p.1 + (r2 - 1/2) * shipOffset * (1/2),
    p.2 + (r3 - 1/2) * shipOffset * (1/2))

/-- How `generateGoal` re-derives the start port edge from its
position, with a ±10 tolerance, top edge checked first; `-1` when no
band matches or no port was generated. -/
def classifyStartPortEdge (p : StartPort) : ℤ :=
  if p.generated then
    if p.y ≤ edgeOffset + 10 then 0
    else if worldWidth - edgeOffset - 10 ≤ p.x then 1
    else if worldHeight - edgeOffset - 10 ≤ p.y then 2
    else if p.x ≤ edgeOffset + 10 then 3
    else -1
  else -1

/-- The goal's do/while edge loop: redraw while the draw equals the
classified start edge (and a port was generated); `none` if the draw
stream runs out. -/
def pickGoalEdge (p : StartPort) : List (Fin 4) → Option (Fin 4)
  | [] => none
  | e :: rest =>
      if (e.val : ℤ) = classifyStartPortEdge p ∧ p.generated then
        pickGoalEdge p rest
      else some e

/-- Model of `generateGoal`: place the goal on the accepted edge, uniformly along
it via `r`. -/
def generateGoal (p : StartPort) (draws : List (Fin 4)) (r : ℚ) :
    Option (ℚ × ℚ) :=
  (pickGoalEdge p draws).map (fun e =>
    if e.val = 0 then (edgeOffset + r * (worldWidth - edgeOffset * 2), edgeOffset)
    else if e.val = 1 then (worldWidth - edgeOffset, edgeOffset + r * (worldHeight - edgeOffset * 2))
    else if e.val = 2 then (edgeOffset + r * (worldWidth - edgeOffset * 2), worldHeight - edgeOffset)
    else (edgeOffset, edgeOffset + r * (worldHeight - edgeOffset * 2)))

/-- C9 counterexample.  A start port drawn on the LEFT edge (edge 3)
with along-edge draw 0.001 sits at (300, 309.4), inside the top edge's
±10 classification band, so `generateGoal` misclassifies its edge as TOP
(0); the goal draw 3 (left) is then accepted at once and the goal is
placed on the left edge — the same edge as the start port, refuting the
claim that start and goal always land on distinct edges. -/
theorem goal_on_startPort_edge :
    (generateStartPort 3 (1/1000) (1/2) (1/2)).1.x = edgeOffset ∧
    (generateStartPort 3 (1/1000) (1/2) (1/2)).1.y = 1547/5 ∧
    classifyStartPortEdge (generateStartPort 3 (1/1000) (1/2) (1/2)).1 = 0 ∧
    pickGoalEdge (generateStartPort 3 (1/1000) (1/2) (1/2)).1 [3] = some 3 ∧
    generateGoal (generateStartPort 3 (1/1000) (1/2) (1/2)).1 [3] (1/2) =
      some (edgeOffset, 5000) := by
  have hv : ((3 : Fin 4)).val = 3 := rfl
  have hport : (generateStartPort 3 (1/1000) (1/2) (1/2)).1 =
      ⟨edgeOffset, 1547/5, true⟩ := by
    unfold generateStartPort
    rw [hv]
    norm_num [edgeOffset, worldHeight]
  have hclass : classifyStartPortEdge (⟨edgeOffset, 1547/5, true⟩ : StartPort) = 0 := by
    unfold classifyStartPortEdge
    norm_num [edgeOffset]
  have hcond : ¬((((3 : Fin 4)).val : ℤ) =
      classifyStartPortEdge (⟨edgeOffset, 1547/5, true⟩ : StartPort) ∧
      (⟨edgeOffset, 1547/5, true⟩ : StartPort).generated) := by
    rw [hclass, hv]
    simp
  have hpick : pickGoalEdge (⟨edgeOffset, 1547/5, true⟩ : StartPort) [3] = some 3 := by
    unfold pickGoalEdge
    rw [if_neg hcond]
  refine ⟨by rw [hport], by rw [hport], by rw [hport, hclass], by rw [hport, hpick], ?_⟩
  rw [hport]
  unfold generateGoal
  rw [hpick]
  simp only [Option.map_some']
  rw [hv]
  norm_num [edgeOffset, worldHeight]

/-- C2 counterexample.  The safe-zone filter measures distance from the
world ORIGIN in both variants; in the extended variant the ship starts
at the camera position near the start port, on a world edge, far from
the origin.  With legitimate noise values (range `[0, 1)`) and
legitimate random draws, chunk (1, 0) generates an iceberg at
(550, 309.4) — 631 units from the origin, so the filter keeps it —
while the start port drawn on the left edge puts the camera at
(300, 309.4), only 250 < 300 units away from that iceberg. -/
theorem iceberg_inside_startPort_safeRadius :
    (∀ q : ℚ, 0 ≤ (fun _ : ℚ => (1:ℚ)/10) q ∧ (fun _ : ℚ => (1:ℚ)/10) q < 1) ∧
    (∀ q : ℚ, 0 ≤ (fun _ : ℚ => (1547:ℚ)/2500) q ∧ (fun _ : ℚ => (1547:ℚ)/2500) q < 1) ∧
    (generateStartPort 3 (1/1000) (1/2) (1/2)).2 = (300, 1547/5) ∧
    ∃ b ∈ icebergsForChunk (fun _ : ℚ => (1:ℚ)/10) (fun _ : ℚ => (1547:ℚ)/2500)
        1250 1250 1 0,
      Real.sqrt (((b.x : ℝ) - ((generateStartPort 3 (1/1000) (1/2) (1/2)).2.1 : ℚ)) ^ 2 +
          ((b.y : ℝ) - ((generateStartPort 3 (1/1000) (1/2) (1/2)).2.2 : ℚ)) ^ 2) <
        (startSafeRadius : ℝ) := by
  have hv : ((3 : Fin 4)).val = 3 := rfl
  have hcam : (generateStartPort 3 (1/1000) (1/2) (1/2)).2 = (300, 1547/5) := by
    unfold generateStartPort
    rw [hv]
    norm_num [edgeOffset, worldHeight, goalRadius]
  have hcount : expectedIcebergCount 1250 1250 = 1 := by
    unfold expectedIcebergCount
    norm_num [icebergGridSize, icebergDensity]
  have hcand : icebergCandidate (fun _ : ℚ => (1:ℚ)/10) (fun _ : ℚ => (1547:ℚ)/2500)
      1 0 0 = ⟨550, 1547/5, 35, 6, 1000⟩ := by
    unfold icebergCandidate
    norm_num [icebergGridSize, icebergMinSize, icebergMaxSize, icebergMinPoints,
      icebergMaxPoints]
  have hmem : (⟨550, 1547/5, 35, 6, 1000⟩ : Iceberg ℚ) ∈
      icebergsForChunk (fun _ : ℚ => (1:ℚ)/10) (fun _ : ℚ => (1547:ℚ)/2500)
        1250 1250 1 0 := by
    unfold icebergsForChunk
    refine List.mem_filterMap.mpr ⟨0, ?_, ?_⟩
    · rw [hcount]
      decide
    · dsimp only
      rw [hcand]
      rw [if_neg (by norm_num [startSafeRadius])]
  refine ⟨fun q => by norm_num, fun q => by norm_num, hcam, ⟨550, 1547/5, 35, 6, 1000⟩,
    hmem, ?_⟩
  rw [hcam]
  push_cast
  have h1 : ((550:ℝ) - 300) ^ 2 + ((1547:ℝ)/5 - 1547/5) ^ 2 = 250 ^ 2 := by norm_num
  rw [h1, Real.sqrt_sq (by norm_num : (0:ℝ) ≤ 250)]
  norm_num [startSafeRadius]

/-! ### Collision and goal checks (`checkCollisions`, `checkGoalReached`) -/

/-- One iceberg triggers a collision: it survives the coarse prefilter
(`distanceSquared > maxCheckDistance²` skips it) and its exact distance
`Math.sqrt(distanceSquared)` is below `shipRadius + icebergRadius`,
with `shipRadius = ship.width / 2` and
`maxCheckDistance = ship.length + maxIcebergSize + 50`. -/
def collides (sx sy : ℝ) (b : Iceberg ℝ) : Prop :=
  ¬(((shipLength : ℝ) + (icebergMaxSize : ℝ) + 50) *
      ((shipLength : ℝ) + (icebergMaxSize : ℝ) + 50) <
    (sx - b.x) * (sx - b.x) + (sy - b.y) * (sy - b.y)) ∧
  Real.sqrt ((sx - b.x) * (sx - b.x) + (sy - b.y) * (sy - b.y)) <
    (shipWidth : ℝ) / 2 + b.size

/-- The loop over all icebergs sets `gameOver` exactly when some iceberg
collides. -/
def collisionDetected (sx sy : ℝ) (l : List (Iceberg ℝ)) : Prop :=
  ∃ b ∈ l, collides sx sy b

section CollisionCheck

open Classical

/-- Model of `checkCollisions`: no effect in a terminal state; otherwise on the
first collision set `gameOver` and stop the game.  Returns the new
`(gameOver, gameRunning)` pair. -/
noncomputable def checkCollisions (sx sy : ℝ) (l : List (Iceberg ℝ))
    (gameOver gameWon gameRunning : Bool) : Bool × Bool :=
  if gameOver || gameWon then (gameOver, gameRunning)
  else if collisionDetected sx sy l then (true, false)
  else (gameOver, gameRunning)

end CollisionCheck

lemma icebergCandidate_size {K : Type} [LinearOrderedField K] [FloorRing K]
    (ns nc : K → K) (cx cy : ℤ) (i : ℕ) :
    (icebergCandidate ns nc cx cy i).size =
      (icebergMinSize : K) + ns (((cx * 1000 + cy + i : ℤ) : K) * (15/100)) *
        ((icebergMaxSize : K) - (icebergMinSize : K)) := rfl

/-- C3.  From a Running session, a collision-check tick sets `gameOver`
if and only if some iceberg's exact Euclidean distance from the ship's
world position is below `shipRadius + icebergSize`: for icebergs within
the generator's size bound the coarse prefilter can never suppress a
true collision (`30 + size ≤ 110 < 330`); and every generated iceberg
does satisfy that size bound. -/
theorem checkCollisions_gameOver_iff :
    (∀ (sx sy : ℝ) (l : List (Iceberg ℝ)) (running : Bool),
      (∀ b ∈ l, b.size ≤ (icebergMaxSize : ℝ)) →
      ((checkCollisions sx sy l false false running).1 = true ↔
        ∃ b ∈ l, Real.sqrt ((sx - b.x) * (sx - b.x) + (sy - b.y) * (sy - b.y)) <
          (shipWidth : ℝ) / 2 + b.size)) ∧
    (∀ (ns nc : ℝ → ℝ), (∀ q, 0 ≤ ns q ∧ ns q < 1) →
      ∀ (w h : ℕ) (cx cy : ℤ), ∀ b ∈ icebergsForChunk ns nc w h cx cy,
        b.size ≤ (icebergMaxSize : ℝ)) := by
  constructor
  · intro sx sy l running hsize
    have hstep : (checkCollisions sx sy l false false running).1 = true ↔
        collisionDetected sx sy l := by
      unfold checkCollisions
      simp only [Bool.or_false, Bool.false_eq_true, if_false]
      split
      · simp [*]
      · simp [*]
    rw [hstep]
    constructor
    · rintro ⟨b, hb, _, hdist⟩
      exact ⟨b, hb, hdist⟩
    · rintro ⟨b, hb, hdist⟩
      refine ⟨b, hb, ?_, hdist⟩
      have hradius : (shipWidth : ℝ) / 2 + b.size ≤ 110 := by
        have := hsize b hb
        norm_num [shipWidth, icebergMaxSize] at this ⊢
        linarith
      have hsq : (sx - b.x) * (sx - b.x) + (sy - b.y) * (sy - b.y) < 110 ^ 2 := by
        have hpos : (0:ℝ) < 110 := by norm_num
        have hlt : Real.sqrt ((sx - b.x) * (sx - b.x) + (sy - b.y) * (sy - b.y)) <
            110 := lt_of_lt_of_le hdist hradius
        exact (Real.sqrt_lt' hpos).mp hlt
      intro hfar
      norm_num [shipLength, icebergMaxSize] at hfar
      nlinarith
  · intro ns nc hns w h cx cy b hb
    obtain ⟨i, rfl⟩ := (mem_icebergsForChunk hb).2
    rw [icebergCandidate_size]
    rcases hns (((cx * 1000 + cy + i : ℤ) : ℝ) * (15/100)) with ⟨h1, h2⟩
    have hmin : (icebergMinSize : ℝ) = 30 := by norm_num [icebergMinSize]
    have hmax : (icebergMaxSize : ℝ) = 80 := by norm_num [icebergMaxSize]
    rw [hmin, hmax]
    nlinarith [h1, h2]

/-- Witness for C3: the spec's collision scenario — ship at the origin,
one iceberg of size 50 at distance `shipRadius + size - 1 = 79`; the
check reports the collision. -/
theorem checkCollisions_gameOver_iff_witness :
    (∀ b ∈ ([⟨79, 0, 50, 6, 0⟩] : List (Iceberg ℝ)), b.size ≤ (icebergMaxSize : ℝ)) ∧
    (checkCollisions 0 0 [⟨79, 0, 50, 6, 0⟩] false false true).1 = true := by
  have hsize : ∀ b ∈ ([⟨79, 0, 50, 6, 0⟩] : List (Iceberg ℝ)),
      b.size ≤ (icebergMaxSize : ℝ) := by
    intro b hb
    rw [List.mem_singleton] at hb
    rw [hb]
    norm_num [icebergMaxSize]
  refine ⟨hsize, ?_⟩
  refine (checkCollisions_gameOver_iff.1 0 0 [⟨79, 0, 50, 6, 0⟩] true hsize).mpr ?_
  refine ⟨⟨79, 0, 50, 6, 0⟩, List.mem_singleton_self _, ?_⟩
  show Real.sqrt (((0:ℝ) - 79) * ((0:ℝ) - 79) + ((0:ℝ) - 0) * ((0:ℝ) - 0)) <
    (shipWidth : ℝ) / 2 + 50
  have h1 : ((0:ℝ) - 79) * ((0:ℝ) - 79) + ((0:ℝ) - 0) * ((0:ℝ) - 0) = 79 ^ 2 := by
    norm_num
  rw [h1, Real.sqrt_sq (by norm_num : (0:ℝ) ≤ 79)]
  norm_num [shipWidth]

/-! ### Game loop (`gameLoop`) -/

section GameLoop

open Classical

/-- Extended-variant game state mutated by `gameLoop`.  Rendering-only
data (`gameOverButton`, `ship.screenX/Y`) and the statistics
accumulators (`totalDistance`, `gameStartTime`) are not modelled. -/
structure GameState where
  st : PhysState
  gameRunning : Bool
  gameOver : Bool
  gameWon : Bool
  animationTime : ℚ
  lastTime : ℝ
  gen : GenState ℝ
  canvasW : ℕ
  canvasH : ℕ
  goalX : ℝ
  goalY : ℝ
  goalGenerated : Bool
  startPortX : ℝ
  startPortY : ℝ
  startPortGenerated : Bool
  winTime : ℝ

/-- Model of `checkGoalReached`: no effect when terminal or no goal exists;
otherwise win when the ship is within `goalRadius` of the goal centre,
freezing the clock at `currentTime`. -/
noncomputable def checkGoalReached (g : GameState) (currentTime : ℝ) : GameState :=
  if g.gameOver || g.gameWon || !g.goalGenerated then g
  else if Real.sqrt ((g.st.camX - g.goalX) * (g.st.camX - g.goalX) +
      (g.st.camY - g.goalY) * (g.st.camY - g.goalY)) < (goalRadius : ℝ) then
    { g with gameWon := true, gameRunning := false, winTime := currentTime }
  else g

/-- One extended-variant `gameLoop(currentTime)` tick: bail out when the
loop is stopped without a terminal state; compute and clamp `deltaTime`;
advance `lastTime` and `animationTime`; then — only while not in a
terminal state — run physics, generation catch-up, collision check and
goal check, in that order.  Drawing has no effect on the modelled
state. -/
noncomputable def gameLoopTick (rcos rsin ns nc : ℝ → ℝ) (k : Keys)
    (g : GameState) (currentTime : ℝ) : GameState :=
  if !g.gameRunning && !g.gameOver && !g.gameWon then g
  else
    let deltaTime : ℝ := min ((currentTime - g.lastTime) / (1667/100)) 2
    let g1 := { g with lastTime := currentTime, animationTime := g.animationTime + 1/2 }
    if !g1.gameOver && !g1.gameWon then
      let g2 := { g1 with st := updateShip rcos rsin deltaTime k g1.st }
      let newGen := ensureIcebergsGenerated ns nc g2.canvasW g2.canvasH
        g2.st.camX g2.st.camY g2.gen
      let g3 := { g2 with gen := newGen }
      let c := checkCollisions g3.st.camX g3.st.camY g3.gen.icebergs
        g3.gameOver g3.gameWon g3.gameRunning
      let g4 := { g3 with gameOver := c.1, gameRunning := c.2 }
      checkGoalReached g4 currentTime
    else g1

/-- Simple-variant game state (no coal, goal or start port). -/
structure SGameState where
  st : SPhysState
  gameRunning : Bool
  gameOver : Bool
  animationTime : ℚ
  lastTime : ℝ
  gen : GenState ℝ
  canvasW : ℕ
  canvasH : ℕ

/-- Simple-variant `checkCollisions`: the terminal guard tests only
`gameOver`. -/
noncomputable def checkCollisionsS (sx sy : ℝ) (l : List (Iceberg ℝ))
    (gameOver gameRunning : Bool) : Bool × Bool :=
  if gameOver then (gameOver, gameRunning)
  else if collisionDetected sx sy l then (true, false)
  else (gameOver, gameRunning)

/-- One simple-variant `gameLoop(currentTime)` tick. -/
noncomputable def gameLoopTickS (rcos rsin ns nc : ℝ → ℝ) (k : Keys)
    (g : SGameState) (currentTime : ℝ) : SGameState :=
  if !g.gameRunning && !g.gameOver then g
  else
    let deltaTime : ℝ := min ((currentTime - g.lastTime) / (1667/100)) 2
    let g1 := { g with lastTime := currentTime, animationTime := g.animationTime + 1/2 }
    if !g1.gameOver then
      let g2 := { g1 with st := updateShipS rcos rsin deltaTime k g1.st }
      let newGen := ensureIcebergsGenerated ns nc g2.canvasW g2.canvasH
        g2.st.camX g2.st.camY g2.gen
      let g3 := { g2 with gen := newGen }
      let c := checkCollisionsS g3.st.camX g3.st.camY g3.gen.icebergs
        g3.gameOver g3.gameRunning
      { g3 with gameOver := c.1, gameRunning := c.2 }
    else g1

end GameLoop

/-- C8.  Once the session is in a terminal state (GameOver or Won), a
further game-loop tick leaves the whole ship state (position, heading,
speed, acceleration, rudder), the coal level, the iceberg list and the
loaded-chunk set unchanged, in both variants: physics, generation,
collision and goal checks are all skipped. -/
theorem terminal_tick_preserves_world :
    (∀ (rcos rsin ns nc : ℝ → ℝ) (k : Keys) (g : GameState) (t : ℝ),
      g.gameOver = true ∨ g.gameWon = true →
      (gameLoopTick rcos rsin ns nc k g t).st = g.st ∧
        (gameLoopTick rcos rsin ns nc k g t).gen = g.gen) ∧
    (∀ (rcos rsin ns nc : ℝ → ℝ) (k : Keys) (g : SGameState) (t : ℝ),
      g.gameOver = true →
      (gameLoopTickS rcos rsin ns nc k g t).st = g.st ∧
        (gameLoopTickS rcos rsin ns nc k g t).gen = g.gen) := by
  constructor
  · intro rcos rsin ns nc k g t h
    rcases h with h | h <;>
      simp [gameLoopTick, h]
  · intro rcos rsin ns nc k g t h
    simp [gameLoopTickS, h]

/-- A concrete terminal (GameOver) extended-variant state. -/
noncomputable def overState : GameState :=
  { st := ⟨0, 0, 0, 0, 0, 0, 0⟩
    gameRunning := false
    gameOver := true
    gameWon := false
    animationTime := 0
    lastTime := 0
    gen := ⟨∅, []⟩
    canvasW := 500
    canvasH := 500
    goalX := 9700
    goalY := 5000
    goalGenerated := true
    startPortX := 300
    startPortY := 5000
    startPortGenerated := true
    winTime := 0 }

/-- A concrete terminal simple-variant state. -/
noncomputable def overStateS : SGameState :=
  { st := ⟨0, 0, 0, 0, 0, 0⟩
    gameRunning := false
    gameOver := true
    animationTime := 0
    lastTime := 0
    gen := ⟨∅, []⟩
    canvasW := 500
    canvasH := 500 }

/-- Witness for C8 at concrete terminal states of both variants. -/
theorem terminal_tick_preserves_world_witness :
    (overState.gameOver = true ∨ overState.gameWon = true) ∧
    ((gameLoopTick (fun _ => (0:ℝ)) (fun _ => (0:ℝ)) (fun _ => (0:ℝ))
        (fun _ => (0:ℝ)) ⟨true, true, true, true⟩ overState 7).st = overState.st ∧
      (gameLoopTick (fun _ => (0:ℝ)) (fun _ => (0:ℝ)) (fun _ => (0:ℝ))
        (fun _ => (0:ℝ)) ⟨true, true, true, true⟩ overState 7).gen = overState.gen) ∧
    overStateS.gameOver = true ∧
    ((gameLoopTickS (fun _ => (0:ℝ)) (fun _ => (0:ℝ)) (fun _ => (0:ℝ))
        (fun _ => (0:ℝ)) ⟨true, true, true, true⟩ overStateS 7).st = overStateS.st ∧
      (gameLoopTickS (fun _ => (0:ℝ)) (fun _ => (0:ℝ)) (fun _ => (0:ℝ))
        (fun _ => (0:ℝ)) ⟨true, true, true, true⟩ overStateS 7).gen = overStateS.gen) :=
  ⟨Or.inl rfl,
    terminal_tick_preserves_world.1 (fun _ => (0:ℝ)) (fun _ => (0:ℝ))
      (fun _ => (0:ℝ)) (fun _ => (0:ℝ)) ⟨true, true, true, true⟩ overState 7
      (Or.inl rfl),
    rfl,
    terminal_tick_preserves_world.2 (fun _ => (0:ℝ)) (fun _ => (0:ℝ))
      (fun _ => (0:ℝ)) (fun _ => (0:ℝ)) ⟨true, true, true, true⟩ overStateS 7 rfl⟩

end Titanic
